import Mathlib

/-!
Shallow embedding of the OV5640 camera sensor driver (`src/ov5640.rs`).

The driver is generic over an I2C bus (`embedded_hal` blocking `Read`/`Write`)
and two output pins.  We embed the bus and the pins as scripted oracles: a
script assigns an outcome to every bus (resp. pin) operation, indexed by how
many operations have been issued so far, and the state records a log of the
operations issued.  Quantifying over scripts captures every deterministic
behaviour of the underlying bus/pin implementations.

Machine integers (`u8`, `u16`) are embedded as `Nat`; the `u16` bound appears
as an explicit hypothesis (`reg < 65536`) where it matters, and the
`try_into().unwrap()` conversions of the source are embedded as a checked
conversion returning `Option`, so that a panic shows up as `none`.
-/

/-- The pixel ordering variants of the raw Bayer format (`RawOrder`). -/
inductive RawOrder where
  | SBGGR8
  | SGBRG8
  | SGRBG8
  | SRGGB8
deriving DecidableEq

/-- The pixel ordering variants of the RGB565 format (`Rgb565Order`). -/
inductive Rgb565Order where
  | Bggr
  | Rggb
  | Grrb
  | Brrg
  | Gbbr
  | Rbbg
deriving DecidableEq

/-- The pixel ordering variants of the YUV422 format (`Yuv422Order`). -/
inductive Yuv422Order where
  | Yuyv
  | Yvyu
  | Uyvy
  | Vyuy
deriving DecidableEq

/-- The output format selector (`Format`). -/
inductive Format where
  | Raw (order : RawOrder)
  | Rgb565 (order : Rgb565Order)
  | Yuv422 (order : Yuv422Order)
deriving DecidableEq

/-- The output resolution selector (`Resolution`). -/
inductive Resolution where
  | Qcifz176_144
  | Qvga320_240
  | Vga640_480
  | Ntsc720_480
  | Pal720_576
  | Xga1024_768
  | P720_1280_720
  | P1080_1920_1080
  | Qsxga2592_1944
deriving DecidableEq

/-- `RawOrder::to_hex`. -/
def RawOrder.to_hex : RawOrder → Nat
  | .SBGGR8 => 0
  | .SGBRG8 => 1
  | .SGRBG8 => 2
  | .SRGGB8 => 3

/-- `Rgb565Order::to_hex`. -/
def Rgb565Order.to_hex : Rgb565Order → Nat
  | .Bggr => 0
  | .Rggb => 1
  | .Grrb => 2
  | .Brrg => 3
  | .Gbbr => 4
  | .Rbbg => 5

/-- `Yuv422Order::to_hex`. -/
def Yuv422Order.to_hex : Yuv422Order → Nat
  | .Yuyv => 0
  | .Yvyu => 1
  | .Uyvy => 2
  | .Vyuy => 3

/-- Modelled from the spec: the numeric constants of the driver
(`crate::constants`, not among the sources): the fixed bus address, the
identity register and identity constant, the two format registers, the three
mux constants, and the baseline and per-resolution configuration tables,
whose contents the spec treats as opaque configuration data. -/
structure Constants where
  OV5640_ADDR : Nat
  OV5640_REG_ID : Nat
  OV5640_ID : Nat
  OV5640_REG_FORMAT_00 : Nat
  OV5640_REG_ISP_FORMAT_MUX_CTRL : Nat
  OV5640_FMT_MUX_RAW_DPC : Nat
  OV5640_FMT_MUX_RGB : Nat
  OV5640_FMT_MUX_YUV422 : Nat
  OV5640_INITIAL_SETTINGS : List (Nat × Nat)
  QCIF_176_144 : List (Nat × Nat)
  QVGA_320_240 : List (Nat × Nat)
  VGA_640_480 : List (Nat × Nat)
  NTSC_720_480 : List (Nat × Nat)
  PAL_720_576 : List (Nat × Nat)
  XGA_1024_768 : List (Nat × Nat)
  P720_1280_720 : List (Nat × Nat)
  P1080_1920_1080 : List (Nat × Nat)
  QSXGA_2592_1944 : List (Nat × Nat)

/-- `Format::format_bits`. -/
def Format.format_bits : Format → Nat
  | .Raw order => order.to_hex
  | .Rgb565 order => 0x60 ||| order.to_hex
  | .Yuv422 order => 0x30 ||| order.to_hex

/-- `Format::mux_bits`. -/
def Format.mux_bits (f : Format) (c : Constants) : Nat :=
  match f with
  | .Raw _ => c.OV5640_FMT_MUX_RAW_DPC
  | .Rgb565 _ => c.OV5640_FMT_MUX_RGB
  | .Yuv422 _ => c.OV5640_FMT_MUX_YUV422

/-- The configuration table selected by a resolution (the `match` in
`Ov5640::init`). -/
def Resolution.table (r : Resolution) (c : Constants) : List (Nat × Nat) :=
  match r with
  | .Qcifz176_144 => c.QCIF_176_144
  | .Qvga320_240 => c.QVGA_320_240
  | .Vga640_480 => c.VGA_640_480
  | .Ntsc720_480 => c.NTSC_720_480
  | .Pal720_576 => c.PAL_720_576
  | .Xga1024_768 => c.XGA_1024_768
  | .P720_1280_720 => c.P720_1280_720
  | .P1080_1920_1080 => c.P1080_1920_1080
  | .Qsxga2592_1944 => c.QSXGA_2592_1944

/-- One operation on the I2C bus: a write of a byte sequence to a bus
address, or a read of a given number of bytes from a bus address. -/
inductive BusOp where
  | write (addr : Nat) (bytes : List Nat)
  | read (addr : Nat) (len : Nat)
deriving DecidableEq

/-- Outcome of one bus operation: success (with the bytes placed in the
caller's buffer, relevant for reads only) or an opaque bus error. -/
inductive BusRes (E : Type) where
  | ok (bytes : List Nat)
  | err (e : E)
deriving DecidableEq

/-- A scripted I2C bus: `script n` is the outcome of the `n`-th bus
operation, `count` how many operations have been issued, `log` the
operations issued so far, in order. -/
structure BusState (E : Type) where
  script : Nat → BusRes E
  count : Nat
  log : List BusOp

/-- Issue one bus operation: record it and consult the script. -/
def BusState.step {E : Type} (s : BusState E) (op : BusOp) :
    BusState E × BusRes E :=
  (⟨s.script, s.count + 1, s.log ++ [op]⟩, s.script s.count)

/-- A scripted output pin: `script n` tells whether the `n`-th pin
operation succeeds, `log` records the logic level of each set call
(`true` = high). -/
structure PinState where
  script : Nat → Bool
  count : Nat
  log : List Bool

/-- Set the pin to the given logic level: record the call and consult the
script for success. -/
def PinState.set (p : PinState) (level : Bool) : PinState × Bool :=
  (⟨p.script, p.count + 1, p.log ++ [level]⟩, p.script p.count)

/-- `OutputPin::set_high`. -/
def PinState.set_high (p : PinState) : PinState × Bool :=
  p.set true

/-- `OutputPin::set_low`. -/
def PinState.set_low (p : PinState) : PinState × Bool :=
  p.set false

/-- `SccbError<I2CE>`. -/
inductive SccbError (E : Type) where
  | I2c (e : E)
  | InvalidId (v : Nat)
  | Gpio
deriving DecidableEq

/-- The driver handle `Ov5640<I2C, PWDN, RST>`, instantiated at a scripted
bus and two scripted pins. -/
structure Ov5640 (E : Type) where
  i2c : BusState E
  pwdn : PinState
  rst : PinState

/-- `u8::try_from` on a `Nat` (the `try_into()` of the source): succeeds
exactly when the value fits in 8 bits. -/
def u8_try_from (n : Nat) : Option Nat :=
  if n ≤ 255 then some n else none

/-- `Ov5640::write_reg`.  A `none` result models a panic of the
`try_into().unwrap()` conversions. -/
def Ov5640.write_reg {E : Type} (dev : Ov5640 E) (c : Constants)
    (reg val : Nat) : Option (Ov5640 E × Except (SccbError E) Unit) :=
  match u8_try_from (reg >>> 8), u8_try_from (reg &&& 0xff) with
  | some hi, some lo =>
    match dev.i2c.step (.write c.OV5640_ADDR [hi, lo, val]) with
    | (i2c, .err e) => some ({ dev with i2c := i2c }, .error (.I2c e))
    | (i2c, .ok _) => some ({ dev with i2c := i2c }, .ok ())
  | _, _ => none

/-- `Ov5640::read_reg`.  The one-byte buffer starts as `[0]`; on a
successful read it holds the bytes delivered by the bus, and the result is
its first byte. -/
def Ov5640.read_reg {E : Type} (dev : Ov5640 E) (c : Constants)
    (reg : Nat) : Option (Ov5640 E × Except (SccbError E) Nat) :=
  match u8_try_from (reg >>> 8), u8_try_from (reg &&& 0xff) with
  | some hi, some lo =>
    match dev.i2c.step (.write c.OV5640_ADDR [hi, lo]) with
    | (i2c, .err e) => some ({ dev with i2c := i2c }, .error (.I2c e))
    | (i2c, .ok _) =>
      match i2c.step (.read c.OV5640_ADDR 1) with
      | (i2c2, .err e) => some ({ dev with i2c := i2c2 }, .error (.I2c e))
      | (i2c2, .ok bytes) =>
        some ({ dev with i2c := i2c2 }, .ok (bytes.headD 0))
  | _, _ => none

/-- `Ov5640::set_rst`. -/
def Ov5640.set_rst {E : Type} (dev : Ov5640 E) (on_ : Bool) :
    Ov5640 E × Except (SccbError E) Unit :=
  if on_ then
    match dev.rst.set_high with
    | (rst, true) => ({ dev with rst := rst }, .ok ())
    | (rst, false) => ({ dev with rst := rst }, .error .Gpio)
  else
    match dev.rst.set_low with
    | (rst, true) => ({ dev with rst := rst }, .ok ())
    | (rst, false) => ({ dev with rst := rst }, .error .Gpio)

/-- `Ov5640::set_pwdn`. -/
def Ov5640.set_pwdn {E : Type} (dev : Ov5640 E) (on_ : Bool) :
    Ov5640 E × Except (SccbError E) Unit :=
  if on_ then
    match dev.pwdn.set_high with
    | (pwdn, true) => ({ dev with pwdn := pwdn }, .ok ())
    | (pwdn, false) => ({ dev with pwdn := pwdn }, .error .Gpio)
  else
    match dev.pwdn.set_low with
    | (pwdn, true) => ({ dev with pwdn := pwdn }, .ok ())
    | (pwdn, false) => ({ dev with pwdn := pwdn }, .error .Gpio)

/-- The `for register in table { self.write_reg(...)? }` loops of
`Ov5640::init`: apply a configuration table in order, one write per entry,
stopping at the first failure. -/
def Ov5640.write_table {E : Type} (dev : Ov5640 E) (c : Constants) :
    List (Nat × Nat) → Option (Ov5640 E × Except (SccbError E) Unit)
  | [] => some (dev, .ok ())
  | r :: rs =>
    match dev.write_reg c r.1 r.2 with
    | none => none
    | some (dev1, .error e) => some (dev1, .error e)
    | some (dev1, .ok _) => dev1.write_table c rs

/-- `Ov5640::init`. -/
def Ov5640.init {E : Type} (dev : Ov5640 E) (c : Constants)
    (format : Format) (resolution : Resolution) :
    Option (Ov5640 E × Except (SccbError E) Unit) :=
  match dev.read_reg c c.OV5640_REG_ID with
  | none => none
  | some (dev1, .error e) => some (dev1, .error e)
  | some (dev1, .ok slave_id) =>
    if slave_id ≠ c.OV5640_ID then
      some (dev1, .error (.InvalidId slave_id))
    else
      match dev1.write_table c c.OV5640_INITIAL_SETTINGS with
      | none => none
      | some (dev2, .error e) => some (dev2, .error e)
      | some (dev2, .ok _) =>
        match dev2.write_table c (resolution.table c) with
        | none => none
        | some (dev3, .error e) => some (dev3, .error e)
        | some (dev3, .ok _) =>
          match dev3.write_reg c c.OV5640_REG_FORMAT_00 format.format_bits with
          | none => none
          | some (dev4, .error e) => some (dev4, .error e)
          | some (dev4, .ok _) =>
            match dev4.write_reg c c.OV5640_REG_ISP_FORMAT_MUX_CTRL
                (format.mux_bits c) with
            | none => none
            | some (dev5, .error e) => some (dev5, .error e)
            | some (dev5, .ok _) => some (dev5, .ok ())

/-- `Ov5640::free`. -/
def Ov5640.free {E : Type} (dev : Ov5640 E) :
    BusState E × PinState × PinState :=
  (dev.i2c, dev.pwdn, dev.rst)

/-- The bus write issued by `write_reg` for a table entry `(reg, val)`:
the address high byte, the address low byte, then the value. -/
def writeOp (c : Constants) (r : Nat × Nat) : BusOp :=
  .write c.OV5640_ADDR [r.1 >>> 8, r.1 &&& 0xff, r.2]

/-- The two bus operations of the identity read that opens `init`. -/
def idTrace (c : Constants) : List BusOp :=
  [.write c.OV5640_ADDR [c.OV5640_REG_ID >>> 8, c.OV5640_REG_ID &&& 0xff],
   .read c.OV5640_ADDR 1]

/-- The register writes a successful `init` is expected to issue: the
baseline table in order, then the resolution's table in order, then the
format-control byte, then the format-mux byte. -/
def expected_writes (c : Constants) (format : Format)
    (resolution : Resolution) : List BusOp :=
  c.OV5640_INITIAL_SETTINGS.map (writeOp c) ++
    (resolution.table c).map (writeOp c) ++
    [writeOp c (c.OV5640_REG_FORMAT_00, format.format_bits),
     writeOp c (c.OV5640_REG_ISP_FORMAT_MUX_CTRL, format.mux_bits c)]

/-- Well-formedness of the constants: every register address is a `u16`.
In the source this is enforced by the Rust types of `crate::constants`. -/
def Constants.WF (c : Constants) : Prop :=
  c.OV5640_REG_ID < 65536 ∧
  c.OV5640_REG_FORMAT_00 < 65536 ∧
  c.OV5640_REG_ISP_FORMAT_MUX_CTRL < 65536 ∧
  (∀ r ∈ c.OV5640_INITIAL_SETTINGS, r.1 < 65536) ∧
  (∀ r ∈ c.QCIF_176_144, r.1 < 65536) ∧
  (∀ r ∈ c.QVGA_320_240, r.1 < 65536) ∧
  (∀ r ∈ c.VGA_640_480, r.1 < 65536) ∧
  (∀ r ∈ c.NTSC_720_480, r.1 < 65536) ∧
  (∀ r ∈ c.PAL_720_576, r.1 < 65536) ∧
  (∀ r ∈ c.XGA_1024_768, r.1 < 65536) ∧
  (∀ r ∈ c.P720_1280_720, r.1 < 65536) ∧
  (∀ r ∈ c.P1080_1920_1080, r.1 < 65536) ∧
  (∀ r ∈ c.QSXGA_2592_1944, r.1 < 65536)

theorem Constants.WF.table {c : Constants} (h : c.WF) (r : Resolution) :
    ∀ e ∈ r.table c, e.1 < 65536 := by
  obtain ⟨-, -, -, -, h1, h2, h3, h4, h5, h6, h7, h8, h9⟩ := h
  cases r <;> assumption

theorem shiftRight_eight_le {reg : Nat} (h : reg < 65536) :
    reg >>> 8 ≤ 255 := by
  rw [Nat.shiftRight_eq_div_pow]
  omega

theorem and_ff_le (reg : Nat) : reg &&& 0xff ≤ 255 :=
  Nat.and_le_right

theorem u8_try_from_eq {n : Nat} (h : n ≤ 255) : u8_try_from n = some n :=
  if_pos h

/-- Reduction of `write_reg` when the scripted bus reports success. -/
theorem write_reg_eq_ok {E : Type} {c : Constants} {dev : Ov5640 E}
    {reg : Nat} (val : Nat) {bs : List Nat} (hreg : reg < 65536)
    (hs : dev.i2c.script dev.i2c.count = .ok bs) :
    dev.write_reg c reg val =
      some ({ dev with i2c := ⟨dev.i2c.script, dev.i2c.count + 1,
        dev.i2c.log ++ [writeOp c (reg, val)]⟩ }, .ok ()) := by
  obtain ⟨⟨sc, ct, lg⟩, pw, rs⟩ := dev
  simp only [BusState.count] at hs
  simp [Ov5640.write_reg, u8_try_from_eq (shiftRight_eight_le hreg),
    u8_try_from_eq (and_ff_le reg), BusState.step, hs, writeOp]

/-- Reduction of `write_reg` when the scripted bus reports an error. -/
theorem write_reg_eq_err {E : Type} {c : Constants} {dev : Ov5640 E}
    {reg : Nat} (val : Nat) {e : E} (hreg : reg < 65536)
    (hs : dev.i2c.script dev.i2c.count = .err e) :
    dev.write_reg c reg val =
      some ({ dev with i2c := ⟨dev.i2c.script, dev.i2c.count + 1,
        dev.i2c.log ++ [writeOp c (reg, val)]⟩ }, .error (.I2c e)) := by
  obtain ⟨⟨sc, ct, lg⟩, pw, rs⟩ := dev
  simp only [BusState.count] at hs
  simp [Ov5640.write_reg, u8_try_from_eq (shiftRight_eight_le hreg),
    u8_try_from_eq (and_ff_le reg), BusState.step, hs, writeOp]

/-- Reduction of `read_reg` when both scripted bus operations succeed. -/
theorem read_reg_eq_ok {E : Type} {c : Constants} {dev : Ov5640 E}
    {reg : Nat} {bs1 bs2 : List Nat} (hreg : reg < 65536)
    (h0 : dev.i2c.script dev.i2c.count = .ok bs1)
    (h1 : dev.i2c.script (dev.i2c.count + 1) = .ok bs2) :
    dev.read_reg c reg =
      some ({ dev with i2c := ⟨dev.i2c.script, dev.i2c.count + 2,
        dev.i2c.log ++ [.write c.OV5640_ADDR [reg >>> 8, reg &&& 0xff],
          .read c.OV5640_ADDR 1]⟩ }, .ok (bs2.headD 0)) := by
  obtain ⟨⟨sc, ct, lg⟩, pw, rs⟩ := dev
  simp only [BusState.count] at h0 h1
  simp [Ov5640.read_reg, u8_try_from_eq (shiftRight_eight_le hreg),
    u8_try_from_eq (and_ff_le reg), BusState.step, h0, h1]

/-- Reduction of `read_reg` when the address write fails: the read is
never attempted. -/
theorem read_reg_eq_err_write {E : Type} {c : Constants} {dev : Ov5640 E}
    {reg : Nat} {e : E} (hreg : reg < 65536)
    (h0 : dev.i2c.script dev.i2c.count = .err e) :
    dev.read_reg c reg =
      some ({ dev with i2c := ⟨dev.i2c.script, dev.i2c.count + 1,
        dev.i2c.log ++ [.write c.OV5640_ADDR [reg >>> 8, reg &&& 0xff]]⟩ },
        .error (.I2c e)) := by
  obtain ⟨⟨sc, ct, lg⟩, pw, rs⟩ := dev
  simp only [BusState.count] at h0
  simp [Ov5640.read_reg, u8_try_from_eq (shiftRight_eight_le hreg),
    u8_try_from_eq (and_ff_le reg), BusState.step, h0]

/-- Reduction of `read_reg` when the address write succeeds and the read
fails. -/
theorem read_reg_eq_err_read {E : Type} {c : Constants} {dev : Ov5640 E}
    {reg : Nat} {bs1 : List Nat} {e : E} (hreg : reg < 65536)
    (h0 : dev.i2c.script dev.i2c.count = .ok bs1)
    (h1 : dev.i2c.script (dev.i2c.count + 1) = .err e) :
    dev.read_reg c reg =
      some ({ dev with i2c := ⟨dev.i2c.script, dev.i2c.count + 2,
        dev.i2c.log ++ [.write c.OV5640_ADDR [reg >>> 8, reg &&& 0xff],
          .read c.OV5640_ADDR 1]⟩ }, .error (.I2c e)) := by
  obtain ⟨⟨sc, ct, lg⟩, pw, rs⟩ := dev
  simp only [BusState.count] at h0 h1
  simp [Ov5640.read_reg, u8_try_from_eq (shiftRight_eight_le hreg),
    u8_try_from_eq (and_ff_le reg), BusState.step, h0, h1]

/-- Reduction of `write_table` when the script succeeds on every entry. -/
theorem write_table_all_ok {E : Type} (c : Constants) :
    ∀ (entries : List (Nat × Nat)) (dev : Ov5640 E),
      (∀ r ∈ entries, r.1 < 65536) →
      (∀ i, i < entries.length →
        ∃ bs, dev.i2c.script (dev.i2c.count + i) = .ok bs) →
      dev.write_table c entries =
        some ({ dev with i2c := ⟨dev.i2c.script,
          dev.i2c.count + entries.length,
          dev.i2c.log ++ entries.map (writeOp c)⟩ }, .ok ())
  | [], dev, _, _ => by
    obtain ⟨⟨sc, ct, lg⟩, pw, rs⟩ := dev
    simp [Ov5640.write_table]
  | r :: rs, dev, hwf, hok => by
    obtain ⟨bs, hbs⟩ := hok 0 (Nat.succ_pos _)
    rw [Nat.add_zero] at hbs
    have hr := hwf r (List.mem_cons_self r rs)
    have step := @write_reg_eq_ok E c dev r.1 r.2 bs hr hbs
    have ih := write_table_all_ok c rs
      ({ dev with i2c := ⟨dev.i2c.script, dev.i2c.count + 1,
        dev.i2c.log ++ [writeOp c (r.1, r.2)]⟩ })
      (fun x hx => hwf x (List.mem_cons_of_mem r hx))
      (by
        intro i hi
        obtain ⟨bs', hbs'⟩ := hok (i + 1) (Nat.succ_lt_succ hi)
        exact ⟨bs', by simpa [Nat.add_assoc, Nat.add_comm 1 i] using hbs'⟩)
    obtain ⟨⟨sc, ct, lg⟩, pw, rst⟩ := dev
    simp only [Ov5640.write_table, step, ih]
    have h1 : ct + 1 + rs.length = ct + (rs.length + 1) := by omega
    simp [h1, List.append_assoc]

/-- Reduction of `write_table` when the script fails first at entry `k`. -/
theorem write_table_fail {E : Type} (c : Constants) :
    ∀ (entries : List (Nat × Nat)) (k : Nat) (dev : Ov5640 E) (e : E)
      (hk : k < entries.length),
      (∀ r ∈ entries, r.1 < 65536) →
      (∀ i, i < k → ∃ bs, dev.i2c.script (dev.i2c.count + i) = .ok bs) →
      dev.i2c.script (dev.i2c.count + k) = .err e →
      dev.write_table c entries =
        some ({ dev with i2c := ⟨dev.i2c.script, dev.i2c.count + k + 1,
          dev.i2c.log ++ (entries.take k).map (writeOp c) ++
            [writeOp c (entries.get ⟨k, hk⟩)]⟩ }, .error (.I2c e))
  | [], k, dev, e, hk, _, _, _ => absurd hk (by simp)
  | r :: rs, 0, dev, e, hk, hwf, _, hfail => by
    rw [Nat.add_zero] at hfail
    have hr := hwf r (List.mem_cons_self r rs)
    have step := @write_reg_eq_err E c dev r.1 r.2 e hr hfail
    obtain ⟨⟨sc, ct, lg⟩, pw, rst⟩ := dev
    simp only [Ov5640.write_table, step]
    simp [List.get]
  | r :: rs, k + 1, dev, e, hk, hwf, hpre, hfail => by
    obtain ⟨bs, hbs⟩ := hpre 0 (Nat.succ_pos _)
    rw [Nat.add_zero] at hbs
    have hr := hwf r (List.mem_cons_self r rs)
    have step := @write_reg_eq_ok E c dev r.1 r.2 bs hr hbs
    have hk' : k < rs.length := Nat.lt_of_succ_lt_succ hk
    have ih := write_table_fail c rs k
      ({ dev with i2c := ⟨dev.i2c.script, dev.i2c.count + 1,
        dev.i2c.log ++ [writeOp c (r.1, r.2)]⟩ }) e hk'
      (fun x hx => hwf x (List.mem_cons_of_mem r hx))
      (by
        intro i hi
        obtain ⟨bs', hbs'⟩ := hpre (i + 1) (Nat.succ_lt_succ hi)
        exact ⟨bs', by simpa [Nat.add_assoc, Nat.add_comm 1 i] using hbs'⟩)
      (by simpa [Nat.add_assoc, Nat.add_comm 1 k] using hfail)
    obtain ⟨⟨sc, ct, lg⟩, pw, rst⟩ := dev
    simp only [Ov5640.write_table, step, ih]
    have h1 : ct + 1 + k + 1 = ct + (k + 1) + 1 := by omega
    simp [h1, List.append_assoc]

/-- The family base offset of the format-control byte, as stated by the
spec (`Raw → 0x00`, `Rgb565 → 0x60`, `Yuv422 → 0x30`). -/
def Format.familyBase : Format → Nat
  | .Raw _ => 0x00
  | .Rgb565 _ => 0x60
  | .Yuv422 _ => 0x30

/-- The ordering code carried by a format (the `to_hex` of its order). -/
def Format.orderCode : Format → Nat
  | .Raw order => order.to_hex
  | .Rgb565 order => order.to_hex
  | .Yuv422 order => order.to_hex

/-- C4: for every (family, ordering) pair the format-control byte is the
family base offset (`Raw → 0x00`, `Rgb565 → 0x60`, `Yuv422 → 0x30`)
bitwise-ORed with the ordering code, and every ordering code is below
`0x10`. -/
theorem format_bits_base_or_code (f : Format) :
    f.format_bits = f.familyBase ||| f.orderCode ∧ f.orderCode < 0x10 := by
  rcases f with o | o | o <;> cases o <;> exact ⟨by decide, by decide⟩

/-- C5: the format-mux byte depends only on the format family, never on
the ordering: every Raw ordering yields the raw/DPC mux constant, every
RGB565 ordering the RGB mux constant, every YUV422 ordering the YUV422 mux
constant. -/
theorem mux_bits_family_only (c : Constants) :
    (∀ o : RawOrder,
      (Format.Raw o).mux_bits c = c.OV5640_FMT_MUX_RAW_DPC) ∧
    (∀ o : Rgb565Order,
      (Format.Rgb565 o).mux_bits c = c.OV5640_FMT_MUX_RGB) ∧
    (∀ o : Yuv422Order,
      (Format.Yuv422 o).mux_bits c = c.OV5640_FMT_MUX_YUV422) :=
  ⟨fun _ => rfl, fun _ => rfl, fun _ => rfl⟩

/-- C6: within each family the ordering-to-code mapping enumerates a dense
0-based range without repetition (Raw onto `[0,1,2,3]`, RGB565 onto
`[0,…,5]`, YUV422 onto `[0,1,2,3]`), the low nibble of the format-control
byte is exactly the ordering code, and the family base bits (`0x60` for
RGB565, `0x30` for YUV422) are always set. -/
theorem order_codes_bijective :
    ([RawOrder.SBGGR8, .SGBRG8, .SGRBG8, .SRGGB8].map RawOrder.to_hex
      = [0, 1, 2, 3]) ∧
    ([Rgb565Order.Bggr, .Rggb, .Grrb, .Brrg, .Gbbr, .Rbbg].map
      Rgb565Order.to_hex = [0, 1, 2, 3, 4, 5]) ∧
    ([Yuv422Order.Yuyv, .Yvyu, .Uyvy, .Vyuy].map Yuv422Order.to_hex
      = [0, 1, 2, 3]) ∧
    (∀ o : RawOrder, (Format.Raw o).format_bits % 16 = o.to_hex) ∧
    (∀ o : Rgb565Order, (Format.Rgb565 o).format_bits % 16 = o.to_hex ∧
      (Format.Rgb565 o).format_bits &&& 0x60 = 0x60) ∧
    (∀ o : Yuv422Order, (Format.Yuv422 o).format_bits % 16 = o.to_hex ∧
      (Format.Yuv422 o).format_bits &&& 0x30 = 0x30) :=
  ⟨by decide, by decide, by decide, fun o => by cases o <;> decide,
    fun o => by cases o <;> decide, fun o => by cases o <;> decide⟩

/-- C9: each control-line setter issues exactly one line-set call, driving
the line high exactly when the argument is `true`, leaves the bus and the
other pin untouched, and returns `Gpio` exactly when the pin operation
fails. -/
theorem set_ctrl_lines {E : Type} (dev : Ov5640 E) (b : Bool) :
    dev.set_rst b = ({ dev with rst := ⟨dev.rst.script, dev.rst.count + 1,
        dev.rst.log ++ [b]⟩ },
      if dev.rst.script dev.rst.count then Except.ok ()
      else Except.error .Gpio) ∧
    dev.set_pwdn b = ({ dev with pwdn := ⟨dev.pwdn.script,
        dev.pwdn.count + 1, dev.pwdn.log ++ [b]⟩ },
      if dev.pwdn.script dev.pwdn.count then Except.ok ()
      else Except.error .Gpio) := by
  obtain ⟨i2c, ⟨psc, pct, plg⟩, ⟨rsc, rct, rlg⟩⟩ := dev
  constructor
  · cases b <;> cases hr : rsc rct <;>
      simp [Ov5640.set_rst, PinState.set_high, PinState.set_low,
        PinState.set, hr]
  · cases b <;> cases hp : psc pct <;>
      simp [Ov5640.set_pwdn, PinState.set_high, PinState.set_low,
        PinState.set, hp]

/-- C7: `write_reg` issues exactly one bus write to the fixed bus address
whose payload is the address high byte, the address low byte, then the
value; it fails with `I2c` wrapping the bus error unchanged exactly when
the bus write fails. -/
theorem write_reg_contract {E : Type} (c : Constants) (dev : Ov5640 E)
    (reg val : Nat) (h : reg < 65536) :
    (∀ bs, dev.i2c.script dev.i2c.count = .ok bs →
      dev.write_reg c reg val =
        some ({ dev with i2c := ⟨dev.i2c.script, dev.i2c.count + 1,
          dev.i2c.log ++
            [.write c.OV5640_ADDR [reg >>> 8, reg &&& 0xff, val]]⟩ },
          .ok ())) ∧
    (∀ e, dev.i2c.script dev.i2c.count = .err e →
      dev.write_reg c reg val =
        some ({ dev with i2c := ⟨dev.i2c.script, dev.i2c.count + 1,
          dev.i2c.log ++
            [.write c.OV5640_ADDR [reg >>> 8, reg &&& 0xff, val]]⟩ },
          .error (.I2c e))) :=
  ⟨fun _ hs => write_reg_eq_ok val h hs, fun _ hs => write_reg_eq_err val h hs⟩

/-- C8: `read_reg` first writes the two address bytes, then reads one
byte; a failing address write is returned as `I2c` with no read attempted,
a failing read after a successful write is returned as `I2c`, and on
success the byte delivered by the bus is returned. -/
theorem read_reg_contract {E : Type} (c : Constants) (dev : Ov5640 E)
    (reg : Nat) (h : reg < 65536) :
    (∀ e, dev.i2c.script dev.i2c.count = .err e →
      dev.read_reg c reg =
        some ({ dev with i2c := ⟨dev.i2c.script, dev.i2c.count + 1,
          dev.i2c.log ++
            [.write c.OV5640_ADDR [reg >>> 8, reg &&& 0xff]]⟩ },
          .error (.I2c e))) ∧
    (∀ bs e, dev.i2c.script dev.i2c.count = .ok bs →
      dev.i2c.script (dev.i2c.count + 1) = .err e →
      dev.read_reg c reg =
        some ({ dev with i2c := ⟨dev.i2c.script, dev.i2c.count + 2,
          dev.i2c.log ++
            [.write c.OV5640_ADDR [reg >>> 8, reg &&& 0xff],
             .read c.OV5640_ADDR 1]⟩ },
          .error (.I2c e))) ∧
    (∀ bs bs2, dev.i2c.script dev.i2c.count = .ok bs →
      dev.i2c.script (dev.i2c.count + 1) = .ok bs2 →
      dev.read_reg c reg =
        some ({ dev with i2c := ⟨dev.i2c.script, dev.i2c.count + 2,
          dev.i2c.log ++
            [.write c.OV5640_ADDR [reg >>> 8, reg &&& 0xff],
             .read c.OV5640_ADDR 1]⟩ },
          .ok (bs2.headD 0))) :=
  ⟨fun _ h0 => read_reg_eq_err_write h h0,
   fun _ _ h0 h1 => read_reg_eq_err_read h h0 h1,
   fun _ _ h0 h1 => read_reg_eq_ok h h0 h1⟩

/-- C2: when the identity read succeeds but delivers a value different
from the identity constant, `init` returns `InvalidId` carrying exactly
the observed value and issues no bus operation beyond the identity read. -/
theorem init_unexpected_identity {E : Type} (c : Constants)
    (dev : Ov5640 E) (format : Format) (resolution : Resolution)
    (bs0 : List Nat) (v : Nat)
    (hreg : c.OV5640_REG_ID < 65536)
    (h0 : dev.i2c.script dev.i2c.count = .ok bs0)
    (h1 : dev.i2c.script (dev.i2c.count + 1) = .ok [v])
    (hv : v ≠ c.OV5640_ID) :
    dev.init c format resolution =
      some ({ dev with i2c := ⟨dev.i2c.script, dev.i2c.count + 2,
        dev.i2c.log ++ idTrace c⟩ }, .error (.InvalidId v)) := by
  unfold Ov5640.init
  rw [read_reg_eq_ok hreg h0 h1]
  simp [hv, idTrace]

/-- C1: when every bus operation succeeds and the identity read delivers
the identity constant, `init` succeeds and issues, after the identity
read, exactly the baseline table writes in order, then the resolution
table writes in order, then the format-control byte, then the format-mux
byte; for `Raw SBGGR8` these last two bytes are `0x00` and the raw-mux
constant. -/
theorem init_happy_path {E : Type} (c : Constants) (dev : Ov5640 E)
    (format : Format) (resolution : Resolution)
    (hwf : c.WF)
    (hok : ∀ n, ∃ bs, dev.i2c.script n = .ok bs)
    (hid : dev.i2c.script (dev.i2c.count + 1) = .ok [c.OV5640_ID]) :
    dev.init c format resolution =
      some ({ dev with i2c := ⟨dev.i2c.script,
        dev.i2c.count + 4 + (c.OV5640_INITIAL_SETTINGS.length +
          (resolution.table c).length),
        dev.i2c.log ++ idTrace c ++ expected_writes c format resolution⟩ },
        .ok ()) ∧
    Format.format_bits (.Raw .SBGGR8) = 0x00 ∧
    (Format.Raw RawOrder.SBGGR8).mux_bits c = c.OV5640_FMT_MUX_RAW_DPC := by
  refine ⟨?_, rfl, rfl⟩
  obtain ⟨⟨sc, ct, lg⟩, pw, rs⟩ := dev
  have hok' : ∀ n, ∃ bs, sc n = .ok bs := hok
  have hid' : sc (ct + 1) = .ok [c.OV5640_ID] := hid
  obtain ⟨bs0, h0⟩ := hok' ct
  have hread := @read_reg_eq_ok E c ⟨⟨sc, ct, lg⟩, pw, rs⟩
    c.OV5640_REG_ID bs0 [c.OV5640_ID] hwf.1 h0 hid'
  have htab1 := write_table_all_ok c c.OV5640_INITIAL_SETTINGS
    ⟨⟨sc, ct + 2, lg ++
      [.write c.OV5640_ADDR [c.OV5640_REG_ID >>> 8, c.OV5640_REG_ID &&& 0xff],
       .read c.OV5640_ADDR 1]⟩, pw, rs⟩
    hwf.2.2.2.1 (fun i _ => hok' (ct + 2 + i))
  have htab2 := write_table_all_ok c (resolution.table c)
    ⟨⟨sc, ct + 2 + c.OV5640_INITIAL_SETTINGS.length,
      (lg ++
        [.write c.OV5640_ADDR
          [c.OV5640_REG_ID >>> 8, c.OV5640_REG_ID &&& 0xff],
         .read c.OV5640_ADDR 1]) ++
        c.OV5640_INITIAL_SETTINGS.map (writeOp c)⟩, pw, rs⟩
    (hwf.table resolution)
    (fun i _ => hok' (ct + 2 + c.OV5640_INITIAL_SETTINGS.length + i))
  obtain ⟨bsA, hA⟩ := hok' (ct + 2 + c.OV5640_INITIAL_SETTINGS.length +
    (resolution.table c).length)
  have hw1 := @write_reg_eq_ok E c
    ⟨⟨sc, ct + 2 + c.OV5640_INITIAL_SETTINGS.length +
        (resolution.table c).length,
      ((lg ++
        [.write c.OV5640_ADDR
          [c.OV5640_REG_ID >>> 8, c.OV5640_REG_ID &&& 0xff],
         .read c.OV5640_ADDR 1]) ++
        c.OV5640_INITIAL_SETTINGS.map (writeOp c)) ++
        (resolution.table c).map (writeOp c)⟩, pw, rs⟩
    c.OV5640_REG_FORMAT_00 format.format_bits bsA hwf.2.1 hA
  obtain ⟨bsB, hB⟩ := hok' (ct + 2 + c.OV5640_INITIAL_SETTINGS.length +
    (resolution.table c).length + 1)
  have hw2 := @write_reg_eq_ok E c
    ⟨⟨sc, ct + 2 + c.OV5640_INITIAL_SETTINGS.length +
        (resolution.table c).length + 1,
      (((lg ++
        [.write c.OV5640_ADDR
          [c.OV5640_REG_ID >>> 8, c.OV5640_REG_ID &&& 0xff],
         .read c.OV5640_ADDR 1]) ++
        c.OV5640_INITIAL_SETTINGS.map (writeOp c)) ++
        (resolution.table c).map (writeOp c)) ++
        [writeOp c (c.OV5640_REG_FORMAT_00, format.format_bits)]⟩, pw, rs⟩
    c.OV5640_REG_ISP_FORMAT_MUX_CTRL (format.mux_bits c) bsB
    hwf.2.2.1 hB
  unfold Ov5640.init
  rw [hread]
  simp only [List.headD_cons, ne_eq, not_true_eq_false, ite_false,
    if_neg (show ¬¬c.OV5640_ID = c.OV5640_ID from not_not_intro rfl)]
  simp only [htab1, htab2, hw1, hw2]
  have hc : ct + 2 + c.OV5640_INITIAL_SETTINGS.length +
      (resolution.table c).length + 1 + 1 =
      ct + 4 + (c.OV5640_INITIAL_SETTINGS.length +
        (resolution.table c).length) := by omega
  simp [hc, idTrace, expected_writes, List.append_assoc]

/-- C3: if the bus write for baseline entry `k` fails while everything
before it succeeded, `init` returns `I2c` with the bus error preserved and
issues exactly the `k` successful baseline writes plus the failing
attempt: nothing beyond entry `k`, no resolution writes, no format
writes. -/
theorem init_baseline_fail {E : Type} (c : Constants) (dev : Ov5640 E)
    (format : Format) (resolution : Resolution) (k : Nat) (e : E)
    (bs0 : List Nat)
    (hwf : c.WF)
    (hk : k < c.OV5640_INITIAL_SETTINGS.length)
    (hkpos : 0 < k)
    (h0 : dev.i2c.script dev.i2c.count = .ok bs0)
    (h1 : dev.i2c.script (dev.i2c.count + 1) = .ok [c.OV5640_ID])
    (hpre : ∀ i, i < k →
      ∃ bs, dev.i2c.script (dev.i2c.count + 2 + i) = .ok bs)
    (hfail : dev.i2c.script (dev.i2c.count + 2 + k) = .err e) :
    dev.init c format resolution =
      some ({ dev with i2c := ⟨dev.i2c.script, dev.i2c.count + 2 + k + 1,
        dev.i2c.log ++ idTrace c ++
          (c.OV5640_INITIAL_SETTINGS.take k).map (writeOp c) ++
          [writeOp c (c.OV5640_INITIAL_SETTINGS.get ⟨k, hk⟩)]⟩ },
        .error (.I2c e)) := by
  obtain ⟨⟨sc, ct, lg⟩, pw, rs⟩ := dev
  have h0' : sc ct = .ok bs0 := h0
  have h1' : sc (ct + 1) = .ok [c.OV5640_ID] := h1
  have hpre' : ∀ i, i < k → ∃ bs, sc (ct + 2 + i) = .ok bs := hpre
  have hfail' : sc (ct + 2 + k) = .err e := hfail
  have hread := @read_reg_eq_ok E c ⟨⟨sc, ct, lg⟩, pw, rs⟩
    c.OV5640_REG_ID bs0 [c.OV5640_ID] hwf.1 h0' h1'
  have htab := write_table_fail c c.OV5640_INITIAL_SETTINGS k
    ⟨⟨sc, ct + 2, lg ++
      [.write c.OV5640_ADDR [c.OV5640_REG_ID >>> 8, c.OV5640_REG_ID &&& 0xff],
       .read c.OV5640_ADDR 1]⟩, pw, rs⟩ e hk
    hwf.2.2.2.1 (fun i hi => hpre' i hi) hfail'
  unfold Ov5640.init
  rw [hread]
  simp only [List.headD_cons, ne_eq, not_true_eq_false, ite_false,
    if_neg (show ¬¬c.OV5640_ID = c.OV5640_ID from not_not_intro rfl)]
  simp only [htab]
  simp [idTrace, List.append_assoc]

/-- C10: for every `u16` register address the two `u8` conversions inside
the register helpers succeed (`reg >>> 8` and `reg &&& 0xff` fit in 8
bits), so `write_reg` and `read_reg` never hit the modelled panic and are
total apart from propagated bus errors. -/
theorem reg_conversions_total {E : Type} (c : Constants) (dev : Ov5640 E)
    (reg val : Nat) (h : reg < 2 ^ 16) :
    u8_try_from (reg >>> 8) = some (reg >>> 8) ∧
    u8_try_from (reg &&& 0xff) = some (reg &&& 0xff) ∧
    (dev.write_reg c reg val).isSome ∧
    (dev.read_reg c reg).isSome := by
  have h16 : reg < 65536 := by omega
  refine ⟨u8_try_from_eq (shiftRight_eight_le h16),
    u8_try_from_eq (and_ff_le reg), ?_, ?_⟩
  · rcases hs : dev.i2c.script dev.i2c.count with bs | e
    · rw [write_reg_eq_ok val h16 hs]; rfl
    · rw [write_reg_eq_err val h16 hs]; rfl
  · rcases hs : dev.i2c.script dev.i2c.count with bs | e
    · rcases hs1 : dev.i2c.script (dev.i2c.count + 1) with bs1 | e1
      · rw [read_reg_eq_ok h16 hs hs1]; rfl
      · rw [read_reg_eq_err_read h16 hs hs1]; rfl
    · rw [read_reg_eq_err_write h16 hs]; rfl

/-- Concrete constants used to exercise the theorems on closed inputs;
the table contents are arbitrary fixture data (the spec treats them as
opaque). -/
def testC : Constants where
  OV5640_ADDR := 0x3c
  OV5640_REG_ID := 0x300a
  OV5640_ID := 0x56
  OV5640_REG_FORMAT_00 := 0x4300
  OV5640_REG_ISP_FORMAT_MUX_CTRL := 0x501f
  OV5640_FMT_MUX_RAW_DPC := 3
  OV5640_FMT_MUX_RGB := 1
  OV5640_FMT_MUX_YUV422 := 0
  OV5640_INITIAL_SETTINGS := [(0x3103, 0x11), (0x3008, 0x82)]
  QCIF_176_144 := [(0x3814, 0x71)]
  QVGA_320_240 := [(0x3814, 0x31)]
  VGA_640_480 := [(0x3814, 0x31), (0x3815, 0x31)]
  NTSC_720_480 := [(0x3814, 0x31)]
  PAL_720_576 := [(0x3814, 0x31)]
  XGA_1024_768 := [(0x3814, 0x31)]
  P720_1280_720 := [(0x3814, 0x11)]
  P1080_1920_1080 := [(0x3814, 0x11)]
  QSXGA_2592_1944 := [(0x3814, 0x11)]

/-- A driver over a bus whose operations all succeed and whose reads all
deliver the identity constant. -/
def testDev : Ov5640 Unit :=
  ⟨⟨fun _ => .ok [0x56], 0, []⟩, ⟨fun _ => true, 0, []⟩,
   ⟨fun _ => true, 0, []⟩⟩

/-- A driver over a bus whose reads deliver `0x00` instead of the
identity constant. -/
def testDevBadId : Ov5640 Unit :=
  ⟨⟨fun _ => .ok [0x00], 0, []⟩, ⟨fun _ => true, 0, []⟩,
   ⟨fun _ => true, 0, []⟩⟩

/-- A driver over a bus that fails on operation 3 (the write of baseline
entry 1) and succeeds elsewhere. -/
def testDevFail3 : Ov5640 Unit :=
  ⟨⟨fun n => if n = 3 then .err () else .ok [0x56], 0, []⟩,
   ⟨fun _ => true, 0, []⟩, ⟨fun _ => true, 0, []⟩⟩

/-- Witness for C1 at `Format::Raw(SBGGR8)`, `Resolution::Vga640_480`. -/
theorem init_happy_path_witness :
    (testDev.init testC (.Raw .SBGGR8) .Vga640_480).map
      (fun p => (p.1.i2c.count, p.1.i2c.log, p.2)) =
      some (8, idTrace testC ++
        expected_writes testC (.Raw .SBGGR8) .Vga640_480, .ok ()) := by
  rw [(init_happy_path testC testDev (.Raw .SBGGR8) .Vga640_480 (by unfold Constants.WF; decide)
    (fun n => ⟨[0x56], rfl⟩) rfl).1]
  rfl

/-- Witness for C2: the bus delivers identity `0x00`. -/
theorem init_unexpected_identity_witness :
    (testDevBadId.init testC (.Raw .SBGGR8) .Vga640_480).map
      (fun p => (p.1.i2c.count, p.1.i2c.log, p.2)) =
      some (2, idTrace testC, .error (.InvalidId 0)) := by
  rw [init_unexpected_identity testC testDevBadId (.Raw .SBGGR8)
    .Vga640_480 [0] 0 (by decide) rfl rfl (by decide)]
  rfl

/-- Witness for C3: the write of baseline entry `k = 1` fails. -/
theorem init_baseline_fail_witness :
    (testDevFail3.init testC (.Raw .SBGGR8) .Vga640_480).map
      (fun p => (p.1.i2c.count, p.1.i2c.log, p.2)) =
      some (4, idTrace testC ++
        [writeOp testC (0x3103, 0x11), writeOp testC (0x3008, 0x82)],
        .error (.I2c ())) := by
  rw [init_baseline_fail testC testDevFail3 (.Raw .SBGGR8) .Vga640_480 1 ()
    [0x56] (by unfold Constants.WF; decide) (by decide) (by decide) rfl rfl
    (fun i hi => by
      have hz : i = 0 := by omega
      subst hz
      exact ⟨[0x56], rfl⟩) rfl]
  rfl

/-- Witness for C7 on a successful bus write. -/
theorem write_reg_contract_witness :
    (testDev.write_reg testC 0x3008 0x42).map
      (fun p => (p.1.i2c.count, p.1.i2c.log, p.2)) =
      some (1, [.write 0x3c [0x30, 0x08, 0x42]], .ok ()) := by
  rw [(write_reg_contract testC testDev 0x3008 0x42 (by decide)).1
    [0x56] rfl]
  rfl

/-- Witness for C8 on a successful address write followed by a successful
read. -/
theorem read_reg_contract_witness :
    (testDev.read_reg testC 0x300a).map
      (fun p => (p.1.i2c.count, p.1.i2c.log, p.2)) =
      some (2, [.write 0x3c [0x30, 0x0a], .read 0x3c 1], .ok 0x56) := by
  rw [(read_reg_contract testC testDev 0x300a (by decide)).2.2
    [0x56] [0x56] rfl rfl]
  rfl

/-- Witness for C10 at the largest `u16` register address. -/
theorem reg_conversions_total_witness :
    u8_try_from (0xffff >>> 8) = some (0xffff >>> 8) ∧
    u8_try_from (0xffff &&& 0xff) = some (0xffff &&& 0xff) ∧
    (testDev.write_reg testC 0xffff 0x12).isSome ∧
    (testDev.read_reg testC 0xffff).isSome :=
  reg_conversions_total testC testDev 0xffff 0x12 (by decide)
